import Mathlib

/-!
Verification development for the RESTeasy binding-and-synchronization engine.

The definitions below are a shallow embedding of the current (class-based)
version of the library: `class RESTeasy` in the repository source.  JavaScript
values are modelled by the inductive `JsValue` (object graphs are modelled as
trees; reference sharing and cycles are outside the model).  Host primitives
that the engine calls but does not implement (`JSON.parse`, `new Date`, the
date formatter) are collected in a `Host` parameter; the HTTP transport
(`fetch`) is a `Server` parameter mapping each request to a response.
Engine methods that can throw are modelled with `Except`/`Option`, and the
stateful engine is modelled by explicit state passing (`M` below) that also
records the trace of HTTP requests issued.

The class's static methods `deepFind`/`deepSet` live in strict mode, so an
assignment to a property of a primitive value raises a `TypeError`; this is
modelled by `Option` results (`none` = the call threw).  Partial mutations
performed before such a throw are not tracked.
-/

/-- Model of a JavaScript runtime value (as produced by JSON and by the
engine's form reading).  Objects are insertion-ordered association lists,
matching JS property enumeration order. -/
inductive JsValue where
  | undefined : JsValue
  | null : JsValue
  | bool : Bool → JsValue
  | num : Int → JsValue
  | str : String → JsValue
  | arr : List JsValue → JsValue
  | obj : List (String × JsValue) → JsValue

/-- JS truthiness (`if (v)`).  `NaN` is not representable in the integer
number model. -/
def truthy : JsValue → Bool
  | .undefined => false
  | .null => false
  | .bool b => b
  | .num n => n != 0
  | .str s => s != ""
  | .arr _ => true
  | .obj _ => true

/-- `typeof v === 'object'` (true for objects, arrays and `null`). -/
def isTypeofObject : JsValue → Bool
  | .obj _ => true
  | .arr _ => true
  | .null => true
  | _ => false

/-- `Array.isArray(v)`. -/
def isArr : JsValue → Bool
  | .arr _ => true
  | _ => false

def isObj : JsValue → Bool
  | .obj _ => true
  | _ => false

/-- First-match lookup in an insertion-ordered property list. -/
def propLookup : List (String × JsValue) → String → Option JsValue
  | [], _ => none
  | (k', v) :: rest, k => if k' == k then some v else propLookup rest k

/-- In-place update of an existing key, else append — JS property assignment
on a plain object keeps insertion order. -/
def insertProp : List (String × JsValue) → String → JsValue → List (String × JsValue)
  | [], k, v => [(k, v)]
  | (k', v') :: rest, k, v =>
      if k' == k then (k', v) :: rest else (k', v') :: insertProp rest k v

/-- Property read `v[k]` on a value that is not `null`/`undefined`.
Primitive wrappers expose `length` on strings; numeric index access and the
remaining wrapper properties are not needed by the engine and read as
`undefined`. -/
def getOwn : JsValue → String → JsValue
  | .obj fs, k => (propLookup fs k).getD .undefined
  | .arr xs, k => if k == "length" then .num xs.length else .undefined
  | .str s, k => if k == "length" then .num s.length else .undefined
  | _, _ => .undefined

/-- Property read `v[k]`; `none` models the `TypeError` raised when `v` is
`null` or `undefined`. -/
def getProp : JsValue → String → Option JsValue
  | .undefined, _ => none
  | .null, _ => none
  | v, k => some (getOwn v k)

/-- Property write `v[k] = x` in strict mode; `none` models the `TypeError`
raised when `v` is not an object.  (Array property writes do not occur in the
engine and are outside the model.) -/
def setProp : JsValue → String → JsValue → Option JsValue
  | .obj fs, k, v => some (.obj (insertProp fs k v))
  | _, _, _ => none

/-- `Object.prototype.hasOwnProperty.call(v, k)` for the value shapes the
engine feeds to `_highlightErrors` (never `null`/`undefined` there). -/
def hasOwnProp (v : JsValue) (k : String) : Bool :=
  match v with
  | .obj fs => (propLookup fs k).isSome
  | .arr _ => k == "length"
  | .str _ => k == "length"
  | _ => false

/-- `String.prototype.split` on a single-character separator, collecting the
current chunk in reverse. -/
def splitCharAux (c : Char) : List Char → List Char → List String
  | [], acc => [String.mk acc.reverse]
  | x :: xs, acc =>
      if x == c then String.mk acc.reverse :: splitCharAux c xs []
      else splitCharAux c xs (x :: acc)

/-- `s.split(c)` (JS semantics: splitting the empty string yields `[""]`). -/
def jsSplit (s : String) (c : Char) : List String :=
  splitCharAux c s.data []

/-- `s.includes(c)` for a single-character needle. -/
def containsChar (s : String) (c : Char) : Bool :=
  s.data.contains c

/-- Loose equality with `undefined` (`v == undefined`), true for both
`undefined` and `null`. -/
def looseUndef : JsValue → Bool
  | .undefined => true
  | .null => true
  | _ => false

/-- Strict equality with `undefined` (`v === undefined`). -/
def strictUndef : JsValue → Bool
  | .undefined => true
  | _ => false

/-- Loop body of `RESTeasy.deepFind` over the split path: at each step the
source checks `cursor[field] == undefined` and stops with `undefined`,
otherwise descends. -/
def deepFindGo : JsValue → List String → Option JsValue
  | cur, [] => some cur
  | cur, f :: rest =>
      match getProp cur f with
      | none => none
      | some v => if looseUndef v then some .undefined else deepFindGo v rest

/-- `RESTeasy.deepFind(obj, path)`: shallow paths are a direct property read,
dotted paths descend step by step.  `none` models a thrown `TypeError`
(property read on `null`/`undefined`). -/
def deepFind (o : JsValue) (path : String) : Option JsValue :=
  if containsChar path '.' then deepFindGo o (jsSplit path '.')
  else getProp o path

/-- Loop body of `RESTeasy.deepSet` over the split path: each intermediate
step creates `{}` when `cursor[field] === undefined`, then descends; the last
part is assigned the value.  `none` models a thrown `TypeError` (strict-mode
assignment to a property of a primitive, or a read on `null`/`undefined`). -/
def deepSetGo : JsValue → List String → JsValue → Option JsValue
  | cur, [], _ => some cur
  | cur, [last], v => setProp cur last v
  | cur, f :: rest, v =>
      match getProp cur f with
      | none => none
      | some g =>
          if strictUndef g then
            match setProp cur f (.obj []) with
            | none => none
            | some _ =>
                match deepSetGo (.obj []) rest v with
                | none => none
                | some child => setProp cur f child
          else
            match deepSetGo g rest v with
            | none => none
            | some child => setProp cur f child

/-- `RESTeasy.deepSet(obj, path, value)`: shallow paths are a direct property
assignment; dotted paths create intermediate objects as needed.  The returned
container is the given container after mutation. -/
def deepSet (o : JsValue) (path : String) (v : JsValue) : Option JsValue :=
  if containsChar path '.' then deepSetGo o (jsSplit path '.') v
  else setProp o path v

example : jsSplit "a.b.c" '.' = ["a", "b", "c"] := rfl
example : deepSet (.obj []) "a.b.c" (.num 5) =
    some (.obj [("a", .obj [("b", .obj [("c", .num 5)])])]) := rfl
example : deepFind (.obj [("a", .obj [("b", .obj [("c", .num 5)])])]) "a.b.c" =
    some (.num 5) := rfl
example : deepSet (.obj [("a", .num 5)]) "a.b" (.num 7) = none := rfl

/-! ## String coercion and JSON serialization -/

mutual

/-- JS string coercion (`'' + v` / DOM property assignment). -/
def jsCoerceString : JsValue → String
  | .undefined => "undefined"
  | .null => "null"
  | .bool b => if b then "true" else "false"
  | .num n => toString n
  | .str s => s
  | .arr xs => String.intercalate "," (jsCoerceList xs)
  | .obj _ => "[object Object]"

/-- Element coercion inside `Array.prototype.join`/`toString`: `null` and
`undefined` become the empty string there. -/
def jsCoerceList : List JsValue → List String
  | [] => []
  | .undefined :: xs => "" :: jsCoerceList xs
  | .null :: xs => "" :: jsCoerceList xs
  | x :: xs => jsCoerceString x :: jsCoerceList xs

end

/-- One element of `Array.prototype.join('\n')`: `null`/`undefined` join as
the empty string, other values by string coercion. -/
def jsJoinValue : JsValue → String
  | .undefined => ""
  | .null => ""
  | v => jsCoerceString v

/-- JSON escaping of one character.  (`\uXXXX` escapes for other control
characters are not needed by the values the theorems evaluate.) -/
def jsonEscapeChar (c : Char) : String :=
  if c == '"' then "\\\""
  else if c == '\\' then "\\\\"
  else if c == '\n' then "\\n"
  else if c == '\r' then "\\r"
  else if c == '\t' then "\\t"
  else String.mk [c]

def jsonQuote (s : String) : String :=
  "\"" ++ String.join (s.data.map jsonEscapeChar) ++ "\""

mutual

/-- `JSON.stringify(v)` (compact form, used for request bodies).  `none`
models the `undefined` result for an `undefined` top-level value; inside
arrays such elements serialize as `null`, inside objects the member is
dropped. -/
def jsonStringify : JsValue → Option String
  | .undefined => none
  | .null => some "null"
  | .bool b => some (if b then "true" else "false")
  | .num n => some (toString n)
  | .str s => some (jsonQuote s)
  | .arr xs => some ("[" ++ String.intercalate "," (jsonElems xs) ++ "]")
  | .obj fs => some ("\x7b" ++ String.intercalate "," (jsonMembers fs) ++ "\x7d")

def jsonElems : List JsValue → List String
  | [] => []
  | x :: xs => ((jsonStringify x).getD "null") :: jsonElems xs

def jsonMembers : List (String × JsValue) → List String
  | [] => []
  | (k, v) :: fs =>
      match jsonStringify v with
      | none => jsonMembers fs
      | some s => (jsonQuote k ++ ":" ++ s) :: jsonMembers fs

end

mutual

/-- `JSON.stringify(v, null, 2)` (pretty form, used when writing a
`formatJSON` field to the editing surface). -/
def jsonStringifyP (ind : String) : JsValue → Option String
  | .undefined => none
  | .null => some "null"
  | .bool b => some (if b then "true" else "false")
  | .num n => some (toString n)
  | .str s => some (jsonQuote s)
  | .arr [] => some "[]"
  | .arr xs =>
      some ("[\n" ++ String.intercalate ",\n" (jsonElemsP (ind ++ "  ") xs) ++
        "\n" ++ ind ++ "]")
  | .obj fs =>
      match jsonMembersP (ind ++ "  ") fs with
      | [] => some "\x7b\x7d"
      | ms => some ("\x7b\n" ++ String.intercalate ",\n" ms ++ "\n" ++ ind ++ "\x7d")

def jsonElemsP (ind : String) : List JsValue → List String
  | [] => []
  | x :: xs => (ind ++ ((jsonStringifyP ind x).getD "null")) :: jsonElemsP ind xs

def jsonMembersP (ind : String) : List (String × JsValue) → List String
  | [] => []
  | (k, v) :: fs =>
      match jsonStringifyP ind v with
      | none => jsonMembersP ind fs
      | some s => (ind ++ jsonQuote k ++ ": " ++ s) :: jsonMembersP ind fs

end

example : jsonStringify (.obj [("id", .str ""), ("name", .str "Foo")]) =
    some "\x7b\"id\":\"\",\"name\":\"Foo\"\x7d" := rfl

/-- `String.prototype.trim` over the whitespace characters relevant to
line-splitting form input. -/
def jsTrim (s : String) : String :=
  let ws : Char → Bool := fun c => c == ' ' || c == '\t' || c == '\n' || c == '\r'
  String.mk (((s.data.dropWhile ws).reverse.dropWhile ws).reverse)

/-! ## Editing-surface fields and the host primitives -/

/-- One control of the editing surface (`formElement.elements`).  `invalid`
models membership of the `invalidField` class; `classes` models the rest of
`classList` (`formatJSON` / `formatArray` tags). -/
structure FormField where
  name : String
  value : String := ""
  fieldType : String := "text"
  nodeName : String := "INPUT"
  checked : Bool := false
  disabled : Bool := false
  classes : List String := []
  invalid : Bool := false
  placeholder : String := ""
deriving Repr, DecidableEq

/-- Host primitives the engine calls but does not implement: `JSON.parse`
(`none` = the parse threw), `new Date(string)`, and `RESTeasy.htmlDate`
(whose calendar arithmetic lives in the host `Date` object). -/
structure Host where
  jsonParse : String → Option JsValue
  newDate : String → JsValue
  htmlDate : JsValue → String

/-- Value produced for one named, enabled control by `_readFormFields`
(checkbox / date / formatJSON / formatArray / plain dispatch).  On a JSON
parse failure the `catch (e) { }` leaves `value` as the raw surface text. -/
def readFieldValue (host : Host) (f : FormField) : JsValue :=
  if f.fieldType == "checkbox" then .bool f.checked
  else if f.fieldType == "date" then
    (if f.value != "" then host.newDate f.value else .null)
  else if f.classes.contains "formatJSON" then
    (match host.jsonParse f.value with
     | some v => v
     | none => .str f.value)
  else if f.classes.contains "formatArray" then
    .arr (((jsSplit f.value '\n').filter (fun l => (jsTrim l).length != 0)).map .str)
  else .str f.value

/-- Fold of `RESTeasy._readFormFields` over the controls; `none` models a
`TypeError` thrown by `deepSet`. -/
def readFormFieldsGo (host : Host) : List FormField → JsValue → Option JsValue
  | [], acc => some acc
  | f :: rest, acc =>
      if f.name == "" || f.disabled then readFormFieldsGo host rest acc
      else
        match deepSet acc f.name (readFieldValue host f) with
        | none => none
        | some acc' => readFormFieldsGo host rest acc'

/-- `RESTeasy._readFormFields()`: builds a record from every named, enabled
control, assigning through `deepSet` (dotted names nest). -/
def readFormFields (host : Host) (fields : List FormField) : Option JsValue :=
  readFormFieldsGo host fields (.obj [])

/-- Stand-in for a host `TypeError` object raised by property access on
`null`/`undefined` or strict-mode assignment to a primitive's property. -/
def typeError : JsValue := .obj [("message", .str "TypeError")]

/-- `ReferenceError` raised inside the class's `_writeFormFields` select
branch: the source reads the bare identifier `idField`, which is not in
scope in the method (it is a constructor parameter, stored as
`this.idField`). -/
def refErrIdField : JsValue := .obj [("message", .str "idField is not defined")]

/-- `RESTeasy._writeFormFields` applied to one control: the source computes
`deepFind(obj, field.name)` first (which can throw), then dispatches on the
control kind for named controls only. -/
def writeField (host : Host) (item : JsValue) (f : FormField) : Except JsValue FormField :=
  match deepFind item f.name with
  | none => .error typeError
  | some val =>
      if f.name == "" then .ok f
      else if f.fieldType == "checkbox" then .ok { f with checked := truthy val }
      else if f.fieldType == "date" then
        .ok { f with value := if truthy val then host.htmlDate val else "" }
      else if f.nodeName == "SELECT" && isTypeofObject val then .error refErrIdField
      else
        let value : String :=
          if f.classes.contains "formatJSON" then (jsonStringifyP "" val).getD "undefined"
          else if f.classes.contains "formatArray" then
            (match val with
             | .arr xs => String.intercalate "\n" (xs.map jsJoinValue)
             | _ => jsCoerceString val)
          else
            (match val with
             | .undefined => ""
             | .null => ""
             | _ => jsCoerceString val)
        .ok { f with value := value, placeholder := value }

/-- `RESTeasy._writeFormFields(obj)` over all controls. -/
def writeFormFields (host : Host) (item : JsValue) :
    List FormField → Except JsValue (List FormField)
  | [] => .ok []
  | f :: rest =>
      match writeField host item f with
      | .error e => .error e
      | .ok f' =>
          match writeFormFields host item rest with
          | .error e => .error e
          | .ok rest' => .ok (f' :: rest')

/-- `RESTeasy._highlightErrors(errors)`: each control's `invalidField` class
is set iff `errors` has an own property matching the control's name. -/
def highlightErrors (errors : JsValue) (fields : List FormField) : List FormField :=
  fields.map (fun f => { f with invalid := hasOwnProp errors f.name })

/-! ## Transport, hooks and the engine state -/

/-- One HTTP request issued through `fetch`.  The configured headers map is
passed through verbatim on every request and carries no behavior observed by
the claims, so it is not tracked. -/
structure Request where
  url : String
  method : String
  body : Option String := none
deriving Repr, DecidableEq

/-- One HTTP response: its status and the JSON-parsed body. -/
structure Response where
  status : Nat
  body : JsValue

/-- `response.ok`: status in the inclusive range 200–299. -/
def Response.ok (r : Response) : Bool := 200 ≤ r.status && r.status ≤ 299

/-- The transport: a deterministic mapping from requests to responses. -/
def Server := Request → Response

/-- Result of invoking a lifecycle hook on its payload: a returned value or a
raised failure.  Hooks are modelled as pure functions of their payload;
re-entrant calls from a hook back into the engine are outside the model. -/
inductive HookOutcome where
  | ret : JsValue → HookOutcome
  | raise : JsValue → HookOutcome

/-- An optionally configured lifecycle hook. -/
def Hook := Option (JsValue → HookOutcome)

/-- The `RESTeasy` instance state, together with the observable state of the
two surfaces it drives: the editing surface (`formFields`, with the identity
control among them), the listing surface (`tableRows` as rendered id/cell
texts, plus the selection marker written by `_updateSelected`), and the
status and pagination-status text elements.  The external `log` sink is not
tracked. -/
structure Engine where
  endpoint : String
  endpointBase : String
  tableFields : List String
  searchParam : String := "q"
  idField : String := "id"
  nameField : String := "name"
  pageSizeParam : Option String := none
  pageNumberParam : Option String := none
  pageSize : Int := 10
  pageIncrement : Int := 1
  pageTotalProperty : Option String := none
  pageNumber : Int := 0
  pageTotal : JsValue := .num 0
  searchValue : JsValue := .undefined
  formFields : List FormField
  tableRows : List (String × List String) := []
  selectedMark : JsValue := .undefined
  statusText : String := ""
  pageStatusText : String := ""
  preSearch : Hook := none
  preUpdateTable : Hook := none
  preUpdateForm : Hook := none
  preSave : Hook := none
  preDelete : Hook := none
  postUpdateTable : Hook := none
  postUpdateForm : Hook := none
  postSave : Hook := none
  postDelete : Hook := none

/-- `this.endpointBase`: the endpoint with any query string stripped. -/
def mkEndpointBase (endpoint : String) : String :=
  if containsChar endpoint '?' then (jsSplit endpoint '?').headD endpoint else endpoint

/-- `this.fid.value`: the current value of the identity control of the
editing surface (the constructor validates that this control exists). -/
def fidValue (e : Engine) : String :=
  match e.formFields.find? (fun f => f.name == e.idField) with
  | some f => f.value
  | none => ""

/-- An engine computation: explicit state passing over the engine plus the
trace of HTTP requests issued so far; `Except` models a thrown value. -/
def M (α : Type) : Type :=
  Engine → List Request → Except JsValue α × Engine × List Request

def mPure {α : Type} (a : α) : M α := fun e t => (.ok a, e, t)

def mThrow {α : Type} (v : JsValue) : M α := fun e t => (.error v, e, t)

def mBind {α β : Type} (x : M α) (f : α → M β) : M β := fun e t =>
  match x e t with
  | (.ok a, e', t') => f a e' t'
  | (.error v, e', t') => (.error v, e', t')

/-- `try { x } catch (err) { h err }`. -/
def mTry {α : Type} (x : M α) (h : JsValue → M α) : M α := fun e t =>
  match x e t with
  | (.ok a, e', t') => (.ok a, e', t')
  | (.error v, e', t') => h v e' t'

def mGet : M Engine := fun e t => (.ok e, e, t)

def mModify (f : Engine → Engine) : M Unit := fun e t => (.ok (), f e, t)

def mOfExcept {α : Type} : Except JsValue α → M α
  | .ok a => mPure a
  | .error v => mThrow v

def mOfOption {α : Type} (err : JsValue) : Option α → M α
  | some a => mPure a
  | none => mThrow err

/-- Perform one `fetch`: the request is appended to the trace and answered by
the server. -/
def mFetch (srv : Server) (req : Request) : M Response :=
  fun e t => (.ok (srv req), e, t ++ [req])

/-- `ReferenceError` raised inside the class's `_doHook` catch block: the
source calls the bare identifier `log`, which is not in scope in the method
(the logger is stored as `this.log`), so the catch itself throws and this
`ReferenceError` propagates in place of the hook's own failure. -/
def refErrLog : JsValue := .obj [("message", .str "log is not defined")]

/-- `RESTeasy._doHook(hook, data)`: an unconfigured hook passes the payload
through; a hook's falsy return keeps the original payload; a hook failure is
re-raised from the catch block (as `refErrLog`, see there), aborting the
enclosing action. -/
def doHook (hook : Hook) (data : JsValue) : M JsValue :=
  match hook with
  | none => mPure data
  | some f =>
      match f data with
      | .ret v => mPure (if truthy v then v else data)
      | .raise _ => mThrow refErrLog

/-- `ReferenceError` raised inside the class's `_updateStatus`: the source
stringifies the bare identifier `val`, which is not defined there. -/
def refErrVal : JsValue := .obj [("message", .str "val is not defined")]

/-- The detail part of `_updateStatus(text, status)` for a truthy `status`:
an object's truthy `message` or `statusMessage`, a string as itself, and
anything else hits the undefined-identifier `val` and throws. -/
def statusDetail (status : JsValue) : Except JsValue JsValue :=
  if isTypeofObject status && truthy (getOwn status "message") then
    .ok (getOwn status "message")
  else if isTypeofObject status && truthy (getOwn status "statusMessage") then
    .ok (getOwn status "statusMessage")
  else
    match status with
    | .str _ => .ok status
    | _ => .error refErrVal

/-- `RESTeasy._updateStatus(text, status)`: writes `text`, or
`text ++ ":\n" ++ detail` when a truthy `status` is supplied. -/
def updateStatus (text : String) (status : JsValue) : M Unit :=
  if truthy status then
    match statusDetail status with
    | .ok d => mModify (fun e => { e with statusText := text ++ ":\n" ++ jsCoerceString d })
    | .error v => mThrow v
  else
    mModify (fun e => { e with statusText := text })

/-- `RESTeasy._updateSelected(id)`: remembers the marker; a listing row
displays as selected iff its id strictly equals the marker. -/
def updateSelected (id : JsValue) : M Unit :=
  mModify (fun e => { e with selectedMark := id })

/-! ## fetchJSON -/

/-- The response-shape normalization of `RESTeasy.fetchJSON` (source order:
array passthrough, `results` array, empty array for list mode; first element,
first of `results`, body itself for single-item mode).  Reading `.results`
off a `null` body throws. -/
def unwrapData (array first : Bool) (data : JsValue) : Except JsValue JsValue :=
  if array && isArr data then .ok data
  else if array then
    match getProp data "results" with
    | none => .error typeError
    | some r =>
        match r with
        | .arr _ => .ok r
        | _ => .ok (.arr [])
  else if first && isArr data then
    match data with
    | .arr [] => .ok .undefined
    | .arr (x :: _) => .ok x
    | _ => .ok .undefined
  else if first then
    match getProp data "results" with
    | none => .error typeError
    | some r =>
        match r with
        | .arr [] => .ok .undefined
        | .arr (x :: _) => .ok x
        | _ => .ok data
  else .ok data

/-- The `count` step of `RESTeasy.fetchJSON`: when a `pageTotalProperty` is
configured (a truthy string) and the body is object-typed, remember
`deepFind(data, prop) || 0` as the pagination total. -/
def fetchCount (data : JsValue) : M Unit :=
  mBind mGet (fun e =>
    match e.pageTotalProperty with
    | none => mPure ()
    | some prop =>
        if prop == "" then mPure ()
        else if isTypeofObject data then
          match deepFind data prop with
          | none => mThrow typeError
          | some v =>
              mModify (fun e2 => { e2 with pageTotal := if truthy v then v else .num 0 })
        else mPure ())

/-- Everything `RESTeasy.fetchJSON` does after the network round trip:
204 short-circuit, JSON parse (already reflected in `Response.body`), the
non-OK throw, the pagination-total capture, and the shape normalization. -/
def fetchPost (array first count : Bool) (resp : Response) : M JsValue :=
  if resp.status == 204 then mPure (if array then .arr [] else .undefined)
  else if !resp.ok then mThrow resp.body
  else
    mBind (if count then fetchCount resp.body else mPure ())
      (fun _ => mOfExcept (unwrapData array first resp.body))

/-- `RESTeasy.fetchJSON(url, options, {array, first, count})`. -/
def fetchJSON (srv : Server) (url method : String) (body : Option String)
    (array first count : Bool) : M JsValue :=
  mBind (mFetch srv { url := url, method := method, body := body })
    (fetchPost array first count)

/-! ## Table refresh -/

/-- The query parameters `_updateTable` pushes, in source order: the (hooked)
search term when truthy, then the page-size and page-number parameters when
their names are configured (truthy strings). -/
def buildQueryParams (e : Engine) (searchValue : JsValue) : List String :=
  (if truthy searchValue then [e.searchParam ++ "=" ++ jsCoerceString searchValue] else []) ++
  (match e.pageSizeParam with
   | some p => if p != "" then [p ++ "=" ++ jsCoerceString (.num e.pageSize)] else []
   | none => []) ++
  (match e.pageNumberParam with
   | some p => if p != "" then [p ++ "=" ++ jsCoerceString (.num e.pageNumber)] else []
   | none => [])

/-- The URL `_updateTable` fetches: the endpoint, extended by `?`/`&` and the
joined parameters only when at least one parameter was pushed. -/
def tableUrl (e : Engine) (searchValue : JsValue) : String :=
  let params := buildQueryParams e searchValue
  if params.length != 0 then
    e.endpoint ++ (if containsChar e.endpoint '?' then "&" else "?") ++
      String.intercalate "&" params
  else e.endpoint

/-- One listing cell: `deepFind(item, fieldPath)` coerced to display text
(per-column style classes are display-only and not tracked). -/
def renderCell (item : JsValue) (fieldPath : String) : Except JsValue String :=
  match deepFind item fieldPath with
  | none => .error typeError
  | some v => .ok (jsCoerceString v)

/-- One listing row: its id attribute (`item[idField]`, coerced by the DOM)
and its cell texts. -/
def renderRow (idField : String) (tableFields : List String) (item : JsValue) :
    Except JsValue (String × List String) :=
  match getProp item idField with
  | none => .error typeError
  | some idv =>
      match tableFields.mapM (renderCell item) with
      | .error e => .error e
      | .ok cells => .ok (jsCoerceString idv, cells)

/-- `for (let item of data)`: arrays iterate their elements, strings their
characters, anything else throws. -/
def iterableItems : JsValue → Option (List JsValue)
  | .arr xs => some xs
  | .str s => some (s.data.map (fun c => .str (String.mk [c])))
  | _ => none

/-- The row-append loop of `_updateTable`; rows appended before a thrown
`TypeError` stay appended, as in the source. -/
def appendRows : List JsValue → M Unit
  | [] => mPure ()
  | item :: rest =>
      mBind mGet (fun e =>
        match renderRow e.idField e.tableFields item with
        | .error err => mThrow err
        | .ok row =>
            mBind (mModify (fun e2 => { e2 with tableRows := e2.tableRows ++ [row] }))
              (fun _ => appendRows rest))

/-- The pagination-status block at the end of `_updateTable` (runs only for a
truthy remembered total; the next/previous control enablement it also sets is
derived from the same two numbers).  Numeric coercion of a non-numeric
remembered total is outside the model. -/
def updatePageStatus : M Unit :=
  mBind mGet (fun e =>
    if truthy e.pageTotal then
      match e.pageTotal with
      | .num total =>
          let current := Int.fdiv e.pageNumber e.pageIncrement + 1
          let tot := Int.fdiv total e.pageIncrement + 1
          mModify (fun e2 =>
            { e2 with pageStatusText := "Page " ++ toString current ++ " of " ++ toString tot })
      | _ => mPure ()
    else mPure ())

/-- The body of `RESTeasy._updateTable`. -/
def updateTableBody (srv : Server) : M Unit :=
  mBind mGet (fun e =>
  mBind (doHook e.preSearch e.searchValue) (fun sv =>
  mBind (fetchJSON srv (tableUrl e sv) "GET" none true false true) (fun data =>
  mBind (doHook e.preUpdateTable data) (fun data2 =>
  mBind (mModify (fun e2 => { e2 with tableRows := [] })) (fun _ =>
  mBind (mOfOption typeError (iterableItems data2)) (fun items =>
  mBind (appendRows items) (fun _ =>
  mBind (doHook e.postUpdateTable data2) (fun _ =>
  updatePageStatus))))))))

/-- `RESTeasy._updateTable()`: on any failure, report it and re-throw. -/
def updateTable (srv : Server) : M Unit :=
  mTry (updateTableBody srv)
    (fun err => mBind (updateStatus "Failed to load items" err) (fun _ => mThrow err))

/-! ## Form refresh, save, delete -/

/-- The `{item, id, reload}` argument of `_updateForm`. -/
structure UpdateFormArgs where
  item : JsValue := .undefined
  id : JsValue := .undefined
  reload : Bool := false

/-- The body of `RESTeasy._updateForm`. -/
def updateFormBody (srv : Server) (host : Host) (args : UpdateFormArgs) : M JsValue :=
  mBind mGet (fun e =>
  let id := if args.reload then JsValue.str (fidValue e) else args.id
  mBind (if !truthy args.item && truthy id then
           fetchJSON srv (e.endpointBase ++ "/" ++ jsCoerceString id) "GET" none false true false
         else mPure args.item) (fun item0 =>
  let item1 := if truthy item0 then item0 else JsValue.obj []
  mBind (doHook e.preUpdateForm item1) (fun item2 =>
  mBind mGet (fun e2 =>
  mBind (mOfExcept (writeFormFields host item2 e2.formFields)) (fun fs =>
  mBind (mModify (fun e3 => { e3 with formFields := fs })) (fun _ =>
  mBind (mModify (fun e3 => { e3 with formFields := highlightErrors (.obj []) e3.formFields }))
    (fun _ =>
  mBind (doHook e.postUpdateForm item2) (fun _ =>
  mPure item2))))))))

/-- `RESTeasy._updateForm(...)`: on any failure, report it and re-throw. -/
def updateForm (srv : Server) (host : Host) (args : UpdateFormArgs) : M JsValue :=
  mTry (updateFormBody srv host args)
    (fun err => mBind (updateStatus "Failed to load item" err) (fun _ => mThrow err))

/-- The request URL `_save` targets, determined solely by the identity
control's value. -/
def saveUrl (e : Engine) : String :=
  if fidValue e != "" then e.endpointBase ++ "/" ++ fidValue e else e.endpointBase

/-- The request method `_save` uses, determined solely by the identity
control's value. -/
def saveMethod (e : Engine) : String :=
  if fidValue e != "" then "PUT" else "POST"

/-- `err.errors || err.error || err` from `_save`'s inner catch (property
reads that throw on a nullish `err`). -/
def errorsOf (err : JsValue) : Except JsValue JsValue :=
  match getProp err "errors" with
  | none => .error typeError
  | some a =>
      if truthy a then .ok a
      else
        match getProp err "error" with
        | none => .error typeError
        | some b => if truthy b then .ok b else .ok err

/-- `_save`'s inner catch: highlight the fields named by the error payload,
then re-throw. -/
def saveFetchHandler (err : JsValue) : M JsValue :=
  mBind (mOfExcept (errorsOf err)) (fun errs =>
  mBind (mModify (fun e => { e with formFields := highlightErrors errs e.formFields }))
    (fun _ => mThrow err))

/-- The body of `RESTeasy._save`. -/
def saveBody (srv : Server) (host : Host) : M JsValue :=
  mBind mGet (fun e =>
  mBind (mOfOption typeError (readFormFields host e.formFields)) (fun data0 =>
  mBind (doHook e.preSave data0) (fun data =>
  mBind (mTry (fetchJSON srv (saveUrl e) (saveMethod e) (jsonStringify data) false true false)
          saveFetchHandler) (fun result =>
  mBind (doHook e.postSave result) (fun _ =>
  mPure result)))))

/-- `RESTeasy._save()`: on any failure, report it and re-throw. -/
def save (srv : Server) (host : Host) : M JsValue :=
  mTry (saveBody srv host)
    (fun err => mBind (updateStatus "Item not saved" err) (fun _ => mThrow err))

/-- The body of `RESTeasy._deleteSelected`: the identity control's value goes
through `preDelete`; a falsy resulting identity throws `'Nothing selected'`
before any request is issued. -/
def deleteBody (srv : Server) : M Unit :=
  mBind mGet (fun e =>
  mBind (doHook e.preDelete (.str (fidValue e))) (fun id =>
  if !truthy id then mThrow (.str "Nothing selected")
  else
    mBind (fetchJSON srv (e.endpointBase ++ "/" ++ jsCoerceString id) "DELETE" none false true false)
      (fun data =>
    mBind (doHook e.postDelete data) (fun _ => mPure ()))))

/-- `RESTeasy._deleteSelected()`: on any failure, report it and re-throw. -/
def deleteSelected (srv : Server) : M Unit :=
  mTry (deleteBody srv)
    (fun err => mBind (updateStatus "Item not deleted" err) (fun _ => mThrow err))

/-! ## Actions -/

/-- `item[nameField] || item[idField]` (lazy: the identity field is read only
when the display name is falsy). -/
def displayName (item : JsValue) (nameField idField : String) : Except JsValue JsValue :=
  match getProp item nameField with
  | none => .error typeError
  | some nm =>
      if truthy nm then .ok nm
      else
        match getProp item idField with
        | none => .error typeError
        | some idv => .ok idv

/-- `RESTeasy.actionSearch()`. -/
def actionSearch (srv : Server) : M Unit :=
  mTry (
    mBind (updateStatus "Searching..." .undefined) (fun _ =>
    mBind (mModify (fun e => { e with pageNumber := 0 })) (fun _ =>
    mBind (updateTable srv) (fun _ =>
    updateStatus "" .undefined))))
  (fun _ => mPure ())

/-- `RESTeasy.actionNextPage()`. -/
def actionNextPage (srv : Server) : M Unit :=
  mTry (
    mBind (mModify (fun e => { e with pageNumber := e.pageNumber + e.pageIncrement }))
      (fun _ => updateTable srv))
  (fun _ => mPure ())

/-- `RESTeasy.actionPreviousPage()`. -/
def actionPreviousPage (srv : Server) : M Unit :=
  mTry (
    mBind (mModify (fun e =>
        let p := e.pageNumber - e.pageIncrement
        { e with pageNumber := if p < 0 then 0 else p }))
      (fun _ => updateTable srv))
  (fun _ => mPure ())

/-- `RESTeasy.actionSelect(id)`. -/
def actionSelect (srv : Server) (host : Host) (id : String) : M Unit :=
  mTry (
    mBind (updateStatus "Working..." .undefined) (fun _ =>
    mBind (updateSelected (.str id)) (fun _ =>
    mBind (updateForm srv host { id := .str id }) (fun item =>
    mBind mGet (fun e =>
    mBind (mOfExcept (match getProp item e.nameField with
                      | none => .error typeError
                      | some nm => .ok nm)) (fun nm =>
    updateStatus "Editing existing item" (if truthy nm then nm else .str id)))))))
  (fun _ => mPure ())

/-- `RESTeasy.actionDelete()`. -/
def actionDelete (srv : Server) (host : Host) : M Unit :=
  mTry (
    mBind (updateStatus "Working..." .undefined) (fun _ =>
    mBind (deleteSelected srv) (fun _ =>
    mBind (updateTable srv) (fun _ =>
    mBind (updateForm srv host {}) (fun _ =>
    updateStatus "Item deleted" .undefined)))))
  (fun _ => mPure ())

/-- `RESTeasy.actionCreate()`. -/
def actionCreate (srv : Server) (host : Host) : M Unit :=
  mTry (
    mBind (updateStatus "Working..." .undefined) (fun _ =>
    mBind (updateSelected .undefined) (fun _ =>
    mBind (updateForm srv host {}) (fun _ =>
    updateStatus "Editing new item" .undefined))))
  (fun _ => mPure ())

/-- `RESTeasy.actionSave()`. -/
def actionSave (srv : Server) (host : Host) : M Unit :=
  mTry (
    mBind (updateStatus "Working..." .undefined) (fun _ =>
    mBind (save srv host) (fun item =>
    if truthy item then
      mBind (updateForm srv host { item := item }) (fun _ =>
      mBind (updateTable srv) (fun _ =>
      mBind mGet (fun e =>
      mBind (mOfExcept (match getProp item e.idField with
                        | none => .error typeError
                        | some v => .ok v)) (fun idv =>
      mBind (updateSelected idv) (fun _ =>
      mBind (mOfExcept (displayName item e.nameField e.idField)) (fun nm =>
      updateStatus "Item saved\nEditing existing item" nm))))))
    else mPure ())))
  (fun _ => mPure ())

/-- The comparison `item !== {}` in `actionReset`: strict inequality against
a freshly allocated object literal compares references and is therefore true
for every value, so the `'Editing new item'` branch below it is unreachable. -/
def freshObjectNeq (_ : JsValue) : Bool := true

/-- `RESTeasy.actionReset()`. -/
def actionReset (srv : Server) (host : Host) : M Unit :=
  mTry (
    mBind (updateStatus "Working..." .undefined) (fun _ =>
    mBind (updateForm srv host { reload := true }) (fun item =>
    mBind mGet (fun e =>
    if freshObjectNeq item then
      mBind (mOfExcept (displayName item e.nameField e.idField)) (fun nm =>
      updateStatus "Editing existing item" nm)
    else
      updateStatus "Editing new item" .undefined))))
  (fun _ => mPure ())

/-- The state initialization at the end of the constructor (offset 0, total
0) followed by the initial un-awaited table refresh, whose rejection
surfaces only as an unhandled promise rejection. -/
def constructInit (srv : Server) : M Unit :=
  mBind (mModify (fun e => { e with pageNumber := 0, pageTotal := .num 0 }))
    (fun _ => mTry (updateTable srv) (fun _ => mPure ()))

/-! ## Effect lemmas: request traces -/

/-- A computation that issues no HTTP request. -/
def TraceConst {α : Type} (m : M α) : Prop := ∀ e t, (m e t).2.2 = t

theorem traceConst_mPure {α : Type} (a : α) : TraceConst (mPure a) := fun _ _ => rfl

theorem traceConst_mThrow {α : Type} (v : JsValue) : TraceConst (mThrow (α := α) v) :=
  fun _ _ => rfl

theorem traceConst_mGet : TraceConst mGet := fun _ _ => rfl

theorem traceConst_mModify (f : Engine → Engine) : TraceConst (mModify f) := fun _ _ => rfl

theorem traceConst_mOfExcept {α : Type} (x : Except JsValue α) : TraceConst (mOfExcept x) := by
  cases x <;> exact fun _ _ => rfl

theorem traceConst_mOfOption {α : Type} (err : JsValue) (x : Option α) :
    TraceConst (mOfOption err x) := by
  cases x <;> exact fun _ _ => rfl

theorem traceConst_mBind {α β : Type} {x : M α} {f : α → M β}
    (hx : TraceConst x) (hf : ∀ a, TraceConst (f a)) : TraceConst (mBind x f) := by
  intro e t
  unfold mBind
  rcases hxe : x e t with ⟨r, e', t'⟩
  have ht' : t' = t := by have := hx e t; rw [hxe] at this; exact this
  cases r with
  | ok a => simpa [ht'] using hf a e' t'
  | error v => simpa using ht'

theorem traceConst_mTry {α : Type} {x : M α} {h : JsValue → M α}
    (hx : TraceConst x) (hh : ∀ v, TraceConst (h v)) : TraceConst (mTry x h) := by
  intro e t
  unfold mTry
  rcases hxe : x e t with ⟨r, e', t'⟩
  have ht' : t' = t := by have := hx e t; rw [hxe] at this; exact this
  cases r with
  | ok a => simpa using ht'
  | error v => simpa [ht'] using hh v e' t'

theorem traceConst_doHook (hook : Hook) (data : JsValue) : TraceConst (doHook hook data) := by
  intro e t
  unfold doHook
  split
  · rfl
  · rename_i f
    rcases h : f data with v | v <;> rfl

theorem traceConst_updateStatus (text : String) (status : JsValue) :
    TraceConst (updateStatus text status) := by
  unfold updateStatus
  split
  · split
    · exact traceConst_mModify _
    · exact traceConst_mThrow _
  · exact traceConst_mModify _

theorem traceConst_updateSelected (id : JsValue) : TraceConst (updateSelected id) :=
  traceConst_mModify _

theorem traceConst_fetchCount (data : JsValue) : TraceConst (fetchCount data) := by
  unfold fetchCount
  refine traceConst_mBind traceConst_mGet (fun e => ?_)
  rcases e.pageTotalProperty with _ | prop
  · exact traceConst_mPure _
  · simp only
    split
    · exact traceConst_mPure _
    · split
      · split
        · exact traceConst_mThrow _
        · exact traceConst_mModify _
      · exact traceConst_mPure _

theorem traceConst_fetchPost (array first count : Bool) (resp : Response) :
    TraceConst (fetchPost array first count resp) := by
  unfold fetchPost
  split
  · exact traceConst_mPure _
  · split
    · exact traceConst_mThrow _
    · refine traceConst_mBind ?_ (fun _ => traceConst_mOfExcept _)
      split
      · exact traceConst_fetchCount _
      · exact traceConst_mPure _

/-- `fetchJSON` issues exactly the one request it was asked to issue. -/
theorem fetchJSON_trace (srv : Server) (url method : String) (body : Option String)
    (array first count : Bool) (e : Engine) (t : List Request) :
    (fetchJSON srv url method body array first count e t).2.2 =
      t ++ [{ url := url, method := method, body := body }] := by
  show (fetchPost array first count (srv { url := url, method := method, body := body }) e
      (t ++ [{ url := url, method := method, body := body }])).2.2 =
    t ++ [{ url := url, method := method, body := body }]
  exact traceConst_fetchPost _ _ _ _ _ _

/-- Binding a single-request computation with request-free continuations
still issues exactly that request. -/
theorem mBind_trace_extend {α β : Type} {x : M α} {f : α → M β} {e : Engine}
    {t s : List Request} (hx : (x e t).2.2 = t ++ s) (hf : ∀ a, TraceConst (f a)) :
    (mBind x f e t).2.2 = t ++ s := by
  unfold mBind
  rcases hxe : x e t with ⟨r, e', t'⟩
  have ht' : t' = t ++ s := by rw [hxe] at hx; exact hx
  cases r with
  | ok a => simpa [ht'] using hf a e' t'
  | error v => simpa using ht'

theorem mTry_trace_extend {α : Type} {x : M α} {h : JsValue → M α} {e : Engine}
    {t s : List Request} (hx : (x e t).2.2 = t ++ s) (hh : ∀ v, TraceConst (h v)) :
    (mTry x h e t).2.2 = t ++ s := by
  unfold mTry
  rcases hxe : x e t with ⟨r, e', t'⟩
  have ht' : t' = t ++ s := by rw [hxe] at hx; exact hx
  cases r with
  | ok a => simpa using ht'
  | error v => simpa [ht'] using hh v e' t'

/-! ## Effect lemmas: pagination offset preservation -/

/-- A computation that leaves the pagination offset untouched. -/
def KeepsPN {α : Type} (m : M α) : Prop := ∀ e t, ((m e t).2.1).pageNumber = e.pageNumber

theorem keepsPN_mPure {α : Type} (a : α) : KeepsPN (mPure a) := fun _ _ => rfl

theorem keepsPN_mThrow {α : Type} (v : JsValue) : KeepsPN (mThrow (α := α) v) := fun _ _ => rfl

theorem keepsPN_mGet : KeepsPN mGet := fun _ _ => rfl

theorem keepsPN_mFetch (srv : Server) (req : Request) : KeepsPN (mFetch srv req) :=
  fun _ _ => rfl

theorem keepsPN_mModify (f : Engine → Engine) (hf : ∀ e, (f e).pageNumber = e.pageNumber) :
    KeepsPN (mModify f) := fun e _ => hf e

theorem keepsPN_mOfExcept {α : Type} (x : Except JsValue α) : KeepsPN (mOfExcept x) := by
  cases x <;> exact fun _ _ => rfl

theorem keepsPN_mOfOption {α : Type} (err : JsValue) (x : Option α) :
    KeepsPN (mOfOption err x) := by
  cases x <;> exact fun _ _ => rfl

theorem keepsPN_mBind {α β : Type} {x : M α} {f : α → M β}
    (hx : KeepsPN x) (hf : ∀ a, KeepsPN (f a)) : KeepsPN (mBind x f) := by
  intro e t
  unfold mBind
  rcases hxe : x e t with ⟨r, e', t'⟩
  have he' : e'.pageNumber = e.pageNumber := by have := hx e t; rw [hxe] at this; exact this
  cases r with
  | ok a => simpa [he'] using hf a e' t'
  | error v => simpa using he'

theorem keepsPN_mTry {α : Type} {x : M α} {h : JsValue → M α}
    (hx : KeepsPN x) (hh : ∀ v, KeepsPN (h v)) : KeepsPN (mTry x h) := by
  intro e t
  unfold mTry
  rcases hxe : x e t with ⟨r, e', t'⟩
  have he' : e'.pageNumber = e.pageNumber := by have := hx e t; rw [hxe] at this; exact this
  cases r with
  | ok a => simpa using he'
  | error v => simpa [he'] using hh v e' t'

theorem keepsPN_doHook (hook : Hook) (data : JsValue) : KeepsPN (doHook hook data) := by
  intro e t
  unfold doHook
  split
  · rfl
  · rename_i f
    rcases h : f data with v | v <;> rfl

theorem keepsPN_updateStatus (text : String) (status : JsValue) :
    KeepsPN (updateStatus text status) := by
  intro e t
  unfold updateStatus
  split
  · rcases statusDetail status with v | d <;> rfl
  · rfl

theorem keepsPN_updateSelected (id : JsValue) : KeepsPN (updateSelected id) :=
  keepsPN_mModify _ (fun _ => rfl)

theorem keepsPN_fetchCount (data : JsValue) : KeepsPN (fetchCount data) := by
  refine keepsPN_mBind keepsPN_mGet (fun e => ?_)
  rcases e.pageTotalProperty with _ | prop
  · exact keepsPN_mPure _
  · simp only
    split
    · exact keepsPN_mPure _
    · split
      · split
        · exact keepsPN_mThrow _
        · exact keepsPN_mModify _ (fun _ => rfl)
      · exact keepsPN_mPure _

theorem keepsPN_fetchPost (array first count : Bool) (resp : Response) :
    KeepsPN (fetchPost array first count resp) := by
  unfold fetchPost
  split
  · exact keepsPN_mPure _
  · split
    · exact keepsPN_mThrow _
    · refine keepsPN_mBind ?_ (fun _ => keepsPN_mOfExcept _)
      split
      · exact keepsPN_fetchCount _
      · exact keepsPN_mPure _

theorem keepsPN_fetchJSON (srv : Server) (url method : String) (body : Option String)
    (array first count : Bool) : KeepsPN (fetchJSON srv url method body array first count) :=
  keepsPN_mBind (keepsPN_mFetch _ _) (fun _ => keepsPN_fetchPost _ _ _ _)

theorem keepsPN_appendRows (items : List JsValue) : KeepsPN (appendRows items) := by
  induction items with
  | nil => exact keepsPN_mPure _
  | cons item rest ih =>
      refine keepsPN_mBind keepsPN_mGet (fun e => ?_)
      split
      · exact keepsPN_mThrow _
      · exact keepsPN_mBind (keepsPN_mModify _ (fun _ => rfl)) (fun _ => ih)

theorem keepsPN_updatePageStatus : KeepsPN updatePageStatus := by
  refine keepsPN_mBind keepsPN_mGet (fun e => ?_)
  split
  · split
    · exact keepsPN_mModify _ (fun _ => rfl)
    · exact keepsPN_mPure _
  · exact keepsPN_mPure _

theorem keepsPN_updateTableBody (srv : Server) : KeepsPN (updateTableBody srv) := by
  refine keepsPN_mBind keepsPN_mGet (fun e => ?_)
  refine keepsPN_mBind (keepsPN_doHook _ _) (fun sv => ?_)
  refine keepsPN_mBind (keepsPN_fetchJSON _ _ _ _ _ _ _) (fun data => ?_)
  refine keepsPN_mBind (keepsPN_doHook _ _) (fun data2 => ?_)
  refine keepsPN_mBind (keepsPN_mModify _ (fun _ => rfl)) (fun _ => ?_)
  refine keepsPN_mBind (keepsPN_mOfOption _ _) (fun items => ?_)
  refine keepsPN_mBind (keepsPN_appendRows _) (fun _ => ?_)
  exact keepsPN_mBind (keepsPN_doHook _ _) (fun _ => keepsPN_updatePageStatus)

theorem keepsPN_updateTable (srv : Server) : KeepsPN (updateTable srv) :=
  keepsPN_mTry (keepsPN_updateTableBody srv)
    (fun _ => keepsPN_mBind (keepsPN_updateStatus _ _) (fun _ => keepsPN_mThrow _))

theorem keepsPN_updateFormBody (srv : Server) (host : Host) (args : UpdateFormArgs) :
    KeepsPN (updateFormBody srv host args) := by
  refine keepsPN_mBind keepsPN_mGet (fun e => ?_)
  refine keepsPN_mBind ?_ (fun item0 => ?_)
  · split <;> split <;>
      first
        | exact keepsPN_fetchJSON _ _ _ _ _ _ _
        | exact keepsPN_mPure _
  · refine keepsPN_mBind (keepsPN_doHook _ _) (fun item2 => ?_)
    refine keepsPN_mBind keepsPN_mGet (fun e2 => ?_)
    refine keepsPN_mBind (keepsPN_mOfExcept _) (fun fs => ?_)
    refine keepsPN_mBind (keepsPN_mModify _ (fun _ => rfl)) (fun _ => ?_)
    refine keepsPN_mBind (keepsPN_mModify _ (fun _ => rfl)) (fun _ => ?_)
    exact keepsPN_mBind (keepsPN_doHook _ _) (fun _ => keepsPN_mPure _)

theorem keepsPN_updateForm (srv : Server) (host : Host) (args : UpdateFormArgs) :
    KeepsPN (updateForm srv host args) :=
  keepsPN_mTry (keepsPN_updateFormBody srv host args)
    (fun _ => keepsPN_mBind (keepsPN_updateStatus _ _) (fun _ => keepsPN_mThrow _))

theorem keepsPN_saveFetchHandler (err : JsValue) : KeepsPN (saveFetchHandler err) :=
  keepsPN_mBind (keepsPN_mOfExcept _)
    (fun _ => keepsPN_mBind (keepsPN_mModify _ (fun _ => rfl)) (fun _ => keepsPN_mThrow _))

theorem keepsPN_saveBody (srv : Server) (host : Host) : KeepsPN (saveBody srv host) := by
  refine keepsPN_mBind keepsPN_mGet (fun e => ?_)
  refine keepsPN_mBind (keepsPN_mOfOption _ _) (fun data0 => ?_)
  refine keepsPN_mBind (keepsPN_doHook _ _) (fun data => ?_)
  refine keepsPN_mBind
    (keepsPN_mTry (keepsPN_fetchJSON _ _ _ _ _ _ _) (fun err => keepsPN_saveFetchHandler err))
    (fun result => ?_)
  exact keepsPN_mBind (keepsPN_doHook _ _) (fun _ => keepsPN_mPure _)

theorem keepsPN_save (srv : Server) (host : Host) : KeepsPN (save srv host) :=
  keepsPN_mTry (keepsPN_saveBody srv host)
    (fun _ => keepsPN_mBind (keepsPN_updateStatus _ _) (fun _ => keepsPN_mThrow _))

theorem keepsPN_deleteBody (srv : Server) : KeepsPN (deleteBody srv) := by
  refine keepsPN_mBind keepsPN_mGet (fun e => ?_)
  refine keepsPN_mBind (keepsPN_doHook _ _) (fun id => ?_)
  split
  · exact keepsPN_mThrow _
  · refine keepsPN_mBind (keepsPN_fetchJSON _ _ _ _ _ _ _) (fun data => ?_)
    exact keepsPN_mBind (keepsPN_doHook _ _) (fun _ => keepsPN_mPure _)

theorem keepsPN_deleteSelected (srv : Server) : KeepsPN (deleteSelected srv) :=
  keepsPN_mTry (keepsPN_deleteBody srv)
    (fun _ => keepsPN_mBind (keepsPN_updateStatus _ _) (fun _ => keepsPN_mThrow _))

/-! ## PathAccessor lemmas -/

theorem propLookup_insertProp_self (fs : List (String × JsValue)) (k : String) (v : JsValue) :
    propLookup (insertProp fs k v) k = some v := by
  induction fs with
  | nil => simp [insertProp, propLookup]
  | cons p rest ih =>
      rcases p with ⟨k', v'⟩
      by_cases h : (k' == k) = true <;> simp [insertProp, propLookup, h, ih]

/-- Sufficient condition on the existing container for a set-then-get round
trip along a split path: at each step the current value is an object and the
next step's existing value, if any, satisfies the same condition. -/
def pathOK : JsValue → List String → Bool
  | c, [] => isObj c
  | c, [_] => isObj c
  | c, f :: rest => isObj c && (strictUndef (getOwn c f) || pathOK (getOwn c f) rest)

theorem pathOK_emptyObj (parts : List String) : pathOK (.obj []) parts = true := by
  cases parts with
  | nil => rfl
  | cons f rest =>
      cases rest with
      | nil => rfl
      | cons f2 rest2 => simp [pathOK, getOwn, propLookup, strictUndef, isObj]

theorem looseUndef_of_isObj {c : JsValue} (h : isObj c = true) : looseUndef c = false := by
  cases c <;> simp_all [isObj, looseUndef]

theorem deepSetGo_roundtrip (parts : List String) :
    ∀ (c v : JsValue), parts ≠ [] → pathOK c parts = true → v ≠ .null →
      ∃ c', deepSetGo c parts v = some c' ∧ isObj c' = true ∧
        deepFindGo c' parts = some v := by
  induction parts with
  | nil => intro c v hne _ _; exact absurd rfl hne
  | cons f rest ih =>
      intro c v _ hok hv
      cases rest with
      | nil =>
          cases c <;> simp [pathOK, isObj] at hok
          rename_i fs
          refine ⟨.obj (insertProp fs f v), rfl, rfl, ?_⟩
          show (match getProp (.obj (insertProp fs f v)) f with
                | none => none
                | some w => if looseUndef w then some .undefined else deepFindGo w []) =
            some v
          simp only [getProp, getOwn, propLookup_insertProp_self, Option.getD_some]
          cases v with
          | undefined => rfl
          | null => exact absurd rfl hv
          | _ => rfl
      | cons f2 rest2 =>
          cases c <;> simp [pathOK, isObj] at hok
          rename_i fs
          by_cases hsu : strictUndef (getOwn (.obj fs) f) = true
          · -- existing value strictly undefined: a fresh object is created
            have hg : getOwn (.obj fs) f = .undefined := by
              revert hsu; cases hgo : getOwn (.obj fs) f <;> simp [strictUndef]
            obtain ⟨child, hset, hobj, hfind⟩ :=
              ih (.obj []) v (by simp) (pathOK_emptyObj _) hv
            refine ⟨.obj (insertProp fs f child), ?_, rfl, ?_⟩
            · show (match getProp (.obj fs) f with
                    | none => none
                    | some g =>
                        if strictUndef g then
                          match setProp (.obj fs) f (.obj []) with
                          | none => none
                          | some _ =>
                              match deepSetGo (.obj []) (f2 :: rest2) v with
                              | none => none
                              | some child => setProp (.obj fs) f child
                        else
                          match deepSetGo g (f2 :: rest2) v with
                          | none => none
                          | some child => setProp (.obj fs) f child) =
                some (.obj (insertProp fs f child))
              simp [getProp, hg, strictUndef, setProp, hset]
            · show (match getProp (.obj (insertProp fs f child)) f with
                    | none => none
                    | some w => if looseUndef w then some .undefined
                                else deepFindGo w (f2 :: rest2)) = some v
              simp [getProp, getOwn, propLookup_insertProp_self,
                looseUndef_of_isObj hobj, hfind]
          · -- existing value present: descend into it
            have hrec : pathOK (getOwn (.obj fs) f) (f2 :: rest2) = true := by
              rcases hok with h | h
              · exact absurd h hsu
              · exact h
            obtain ⟨child, hset, hobj, hfind⟩ := ih (getOwn (.obj fs) f) v (by simp) hrec hv
            have hgne : strictUndef (getOwn (.obj fs) f) = false := by
              simpa using hsu
            refine ⟨.obj (insertProp fs f child), ?_, rfl, ?_⟩
            · show (match getProp (.obj fs) f with
                    | none => none
                    | some g =>
                        if strictUndef g then
                          match setProp (.obj fs) f (.obj []) with
                          | none => none
                          | some _ =>
                              match deepSetGo (.obj []) (f2 :: rest2) v with
                              | none => none
                              | some child => setProp (.obj fs) f child
                        else
                          match deepSetGo g (f2 :: rest2) v with
                          | none => none
                          | some child => setProp (.obj fs) f child) =
                some (.obj (insertProp fs f child))
              simp [getProp, hgne, hset, setProp]
            · show (match getProp (.obj (insertProp fs f child)) f with
                    | none => none
                    | some w => if looseUndef w then some .undefined
                                else deepFindGo w (f2 :: rest2)) = some v
              simp [getProp, getOwn, propLookup_insertProp_self,
                looseUndef_of_isObj hobj, hfind]

/-! ## Small-step lemmas for the effect model -/

theorem mBind_mGet_apply {α : Type} (K : Engine → M α) (e : Engine) (t : List Request) :
    mBind mGet K e t = K e e t := rfl

theorem mBind_mPure_apply {α β : Type} (a : α) (K : α → M β) (e : Engine) (t : List Request) :
    mBind (mPure a) K e t = K a e t := rfl

theorem mBind_ok {α β : Type} {x : M α} {K : α → M β} {e e' : Engine}
    {t t' : List Request} {a : α} (hx : x e t = (.ok a, e', t')) :
    mBind x K e t = K a e' t' := by
  unfold mBind; rw [hx]

theorem mBind_error {α β : Type} {x : M α} {K : α → M β} {e e' : Engine}
    {t t' : List Request} {v : JsValue} (hx : x e t = (.error v, e', t')) :
    mBind x K e t = (.error v, e', t') := by
  unfold mBind; rw [hx]

theorem mTry_ok {α : Type} {x : M α} {h : JsValue → M α} {e e' : Engine}
    {t t' : List Request} {a : α} (hx : x e t = (.ok a, e', t')) :
    mTry x h e t = (.ok a, e', t') := by
  unfold mTry; rw [hx]

theorem mTry_error {α : Type} {x : M α} {h : JsValue → M α} {e e' : Engine}
    {t t' : List Request} {v : JsValue} (hx : x e t = (.error v, e', t')) :
    mTry x h e t = h v e' t' := by
  unfold mTry; rw [hx]

theorem mOfOption_some {α : Type} (err : JsValue) (a : α) :
    mOfOption err (some a) = mPure a := rfl

theorem doHook_none (data : JsValue) : doHook none data = mPure data := rfl

theorem doHook_raise {f : JsValue → HookOutcome} {data err : JsValue}
    (h : f data = .raise err) : doHook (some f) data = mThrow refErrLog := by
  show (match f data with
        | HookOutcome.ret v => mPure (if truthy v then v else data)
        | HookOutcome.raise _ => mThrow refErrLog) = mThrow refErrLog
  rw [h]

theorem doHook_ret {f : JsValue → HookOutcome} {data v : JsValue}
    (h : f data = .ret v) : doHook (some f) data = mPure (if truthy v then v else data) := by
  show (match f data with
        | HookOutcome.ret v => mPure (if truthy v then v else data)
        | HookOutcome.raise _ => mThrow refErrLog) = mPure (if truthy v then v else data)
  rw [h]

theorem updateStatus_plain (text : String) (e : Engine) (t : List Request) :
    updateStatus text .undefined e t = (.ok (), { e with statusText := text }, t) := rfl

/-! ## Concrete fixtures -/

/-- A host whose JSON parser rejects its input (as `JSON.parse` does on the
non-JSON texts used below); dates do not occur in these scenarios. -/
def hostNone : Host :=
  { jsonParse := fun _ => none, newDate := fun _ => .undefined, htmlDate := fun _ => "" }

/-- A server answering every request with `200 []`. -/
def srvEmptyList : Server := fun _ => { status := 200, body := .arr [] }

/-- The identity control required by the engine's markup contract
(`<input type="hidden" name="id">`, as in the README's minimal form). -/
def idControl : FormField := { name := "id", fieldType := "hidden" }

/-- A plain text control named `name` holding `"Foo"`. -/
def nameControl : FormField := { name := "name", value := "Foo" }

/-- The end-to-end scenario engine: endpoint `/api/widgets`, identity field
`id`, empty identity control, name control holding `"Foo"`, no hooks. -/
def widgetEngine : Engine :=
  { endpoint := "/api/widgets", endpointBase := mkEndpointBase "/api/widgets",
    tableFields := ["name"], formFields := [idControl, nameControl] }

/-- The end-to-end scenario server: the create request succeeds with the new
item (`id` `"42"`), the subsequent table refresh returns an empty list. -/
def widgetServer : Server := fun req =>
  if req.method == "POST" then
    { status := 200, body := .obj [("id", .str "42"), ("name", .str "Foo")] }
  else { status := 200, body := .arr [] }

/-- An engine whose editing surface holds only the (empty) identity control. -/
def emptyIdEngine : Engine :=
  { endpoint := "/api/widgets", endpointBase := mkEndpointBase "/api/widgets",
    tableFields := ["name"], formFields := [idControl] }

/-! ## Claim C2 -/

/-- Helper for C2: the run of `_deleteSelected` under an empty identity and a
`preDelete` that is unconfigured or returns nothing. -/
theorem deleteSelected_run (srv : Server) (e : Engine) (t : List Request)
    (hfid : fidValue e = "")
    (hhook : e.preDelete = none ∨
      ∃ f, e.preDelete = some f ∧ f (.str "") = .ret .undefined) :
    deleteSelected srv e t = (.error (.str "Nothing selected"),
      { e with statusText := "Item not deleted:\nNothing selected" }, t) := by
  have hdb : deleteBody srv e t = (.error (.str "Nothing selected"), e, t) := by
    unfold deleteBody
    rw [mBind_mGet_apply, hfid]
    rcases hhook with hnone | ⟨f, hsome, hret⟩
    · rw [hnone, doHook_none, mBind_mPure_apply]; rfl
    · rw [hsome, doHook_ret hret, mBind_mPure_apply]; rfl
  unfold deleteSelected
  rw [mTry_error hdb]; rfl

/-- C2: in every engine state whose identity control is empty and where
`preDelete` supplies no identity (not configured, or returning nothing),
`_deleteSelected` fails with the `'Nothing selected'` condition and
`actionDelete` issues no HTTP request at all — in particular no `DELETE` to
`endpointBase ++ "/"` with an empty identity; only the status element
changes. -/
theorem delete_empty_identity_no_request (srv : Server) (host : Host) (e : Engine)
    (t : List Request)
    (hfid : fidValue e = "")
    (hhook : e.preDelete = none ∨
      ∃ f, e.preDelete = some f ∧ f (.str "") = .ret .undefined) :
    deleteSelected srv e t = (.error (.str "Nothing selected"),
      { e with statusText := "Item not deleted:\nNothing selected" }, t) ∧
    actionDelete srv host e t = (.ok (),
      { e with statusText := "Item not deleted:\nNothing selected" }, t) := by
  refine ⟨deleteSelected_run srv e t hfid hhook, ?_⟩
  unfold actionDelete mTry
  rw [mBind_ok (updateStatus_plain "Working..." e t),
    mBind_error (deleteSelected_run srv { e with statusText := "Working..." } t hfid hhook)]
  rfl

theorem delete_empty_identity_no_request_witness :
    fidValue emptyIdEngine = "" ∧
    actionDelete srvEmptyList hostNone emptyIdEngine [] = (.ok (),
      { emptyIdEngine with statusText := "Item not deleted:\nNothing selected" }, []) :=
  ⟨rfl,
    (delete_empty_identity_no_request srvEmptyList hostNone emptyIdEngine [] rfl
      (Or.inl rfl)).2⟩

/-! ## Claim C1 -/

/-- Helper for C1: `_save` under a throwing `preSave` aborts before any
request, reporting through its own catch. -/
theorem save_preSave_throw_run (srv : Server) (host : Host) (e : Engine)
    (t : List Request) (d err : JsValue) (f : JsValue → HookOutcome)
    (hread : readFormFields host e.formFields = some d)
    (hpre : e.preSave = some f) (hraise : f d = .raise err) :
    save srv host e t = (.error refErrLog,
      { e with statusText := "Item not saved:\nlog is not defined" }, t) := by
  have hb : saveBody srv host e t = (.error refErrLog, e, t) := by
    unfold saveBody
    rw [mBind_mGet_apply, hread, mOfOption_some, mBind_mPure_apply, hpre,
      doHook_raise hraise]
    rfl
  unfold save
  rw [mTry_error hb]
  rfl

/-- C1: for every form state (whose reading succeeds) and every configured
`preSave` hook that throws on the data it receives during `save()`, the save
action issues no HTTP request at all — the fetch step is never reached — and
the editing surface, listing surface and selection marker are untouched by
the remainder of the action; the failure lands in the action's own error
reporting (`'Item not saved'` status, with the detail coming from the
`ReferenceError` raised by `_doHook`'s own catch block). -/
theorem preSave_throw_aborts_save (srv : Server) (host : Host) (e : Engine)
    (t : List Request) (d err : JsValue) (f : JsValue → HookOutcome)
    (hread : readFormFields host e.formFields = some d)
    (hpre : e.preSave = some f) (hraise : f d = .raise err) :
    save srv host e t = (.error refErrLog,
      { e with statusText := "Item not saved:\nlog is not defined" }, t) ∧
    actionSave srv host e t = (.ok (),
      { e with statusText := "Item not saved:\nlog is not defined" }, t) := by
  refine ⟨save_preSave_throw_run srv host e t d err f hread hpre hraise, ?_⟩
  unfold actionSave mTry
  rw [mBind_ok (updateStatus_plain "Working..." e t),
    mBind_error
      (save_preSave_throw_run srv host { e with statusText := "Working..." } t d err f
        hread hpre hraise)]
  rfl

/-- A `preSave` hook that always throws, for the C1 witness. -/
def throwingPreSave : JsValue → HookOutcome := fun _ => .raise (.str "blocked")

theorem preSave_throw_aborts_save_witness :
    readFormFields hostNone
        ({ widgetEngine with preSave := some throwingPreSave } : Engine).formFields =
      some (.obj [("id", .str ""), ("name", .str "Foo")]) ∧
    throwingPreSave (.obj [("id", .str ""), ("name", .str "Foo")]) = .raise (.str "blocked") ∧
    actionSave srvEmptyList hostNone
        ({ widgetEngine with preSave := some throwingPreSave } : Engine) [] =
      (.ok (), ({ widgetEngine with
                  preSave := some throwingPreSave,
                  statusText := "Item not saved:\nlog is not defined" } : Engine), []) :=
  ⟨rfl, rfl,
    (preSave_throw_aborts_save srvEmptyList hostNone
      ({ widgetEngine with preSave := some throwingPreSave } : Engine) []
      (.obj [("id", .str ""), ("name", .str "Foo")]) (.str "blocked") throwingPreSave
      rfl rfl rfl).2⟩

/-! ## Claim C3 -/

/-- A `postSave` hook that always throws, for C3. -/
def throwingPostSave : JsValue → HookOutcome := fun _ => .raise (.str "boom")

/-- C3 (code evaluated at the failing input): in the concrete save scenario,
the run with no `postSave` completes — success status, identity control
`"42"` — while the identical run with a throwing `postSave` is unwound by
`_doHook`'s re-throw: the result is dropped, the editing surface is not
re-displayed (the identity control stays empty), selection is not re-marked,
and the status reports `'Item not saved'`.  Only the save request itself was
issued.  This contradicts the claim (and `_doHook`'s own doc comment, which
says failed hooks are caught and logged). -/
theorem postSave_throw_changes_save_outcome :
    (actionSave widgetServer hostNone widgetEngine []).2.1.statusText =
      "Item saved\nEditing existing item:\nFoo" ∧
    fidValue (actionSave widgetServer hostNone widgetEngine []).2.1 = "42" ∧
    actionSave widgetServer hostNone
        ({ widgetEngine with postSave := some throwingPostSave } : Engine) [] =
      (.ok (), ({ widgetEngine with
                  postSave := some throwingPostSave,
                  statusText := "Item not saved:\nlog is not defined" } : Engine),
        [{ url := "/api/widgets", method := "POST",
           body := some "\x7b\"id\":\"\",\"name\":\"Foo\"\x7d" }]) :=
  ⟨rfl, rfl, rfl⟩

/-! ## Claim C4 -/

/-- C4 counterexample: in the end-to-end scenario the create request's body
is `{"id":"","name":"Foo"}` — the empty identity control is a named, enabled
field and is serialized as an empty string — not `{"name":"Foo"}` as the
claim states. -/
theorem save_scenario_body_counterexample :
    (actionSave widgetServer hostNone widgetEngine []).2.2.head? =
      some { url := "/api/widgets", method := "POST",
             body := some "\x7b\"id\":\"\",\"name\":\"Foo\"\x7d" } ∧
    ¬ ((actionSave widgetServer hostNone widgetEngine []).2.2.head? =
        some { url := "/api/widgets", method := "POST",
               body := some "\x7b\"name\":\"Foo\"\x7d" }) := by
  refine ⟨rfl, fun h => ?_⟩
  have h2 : (some { url := "/api/widgets", method := "POST",
                    body := some "\x7b\"id\":\"\",\"name\":\"Foo\"\x7d" } : Option Request) =
      some { url := "/api/widgets", method := "POST",
             body := some "\x7b\"name\":\"Foo\"\x7d" } :=
    Eq.trans (by rfl) h
  exact absurd (Option.some.inj h2) (by decide)

theorem traceConst_saveFetchHandler (err : JsValue) : TraceConst (saveFetchHandler err) := by
  unfold saveFetchHandler
  exact traceConst_mBind (traceConst_mOfExcept _)
    (fun _ => traceConst_mBind (traceConst_mModify _) (fun _ => traceConst_mThrow _))

/-- C4 (amended): `_save` chooses its one request solely from the identity
control — empty value ⇒ `POST` to the base endpoint, value `id` ⇒ `PUT` to
`endpointBase ++ "/" ++ id` — with body `JSON.stringify` of the record read
from every named, enabled form field; and in the concrete scenario
(`/api/widgets`, empty identity, name `"Foo"`) it issues
`POST /api/widgets` with body `{"id":"","name":"Foo"}` (the empty identity
field is serialized as an empty string), after which the success response
`{"id":"42","name":"Foo"}` leaves the identity control holding `"42"` and
the reported status containing `"Foo"`. -/
theorem save_request_rule_and_scenario :
    (∀ (srv : Server) (host : Host) (e : Engine) (t : List Request) (d : JsValue),
        e.preSave = none →
        readFormFields host e.formFields = some d →
        (save srv host e t).2.2 = t ++
          [{ url := if fidValue e = "" then e.endpointBase
                    else e.endpointBase ++ "/" ++ fidValue e,
             method := if fidValue e = "" then "POST" else "PUT",
             body := jsonStringify d }]) ∧
    (actionSave widgetServer hostNone widgetEngine []).2.2.head? =
      some { url := "/api/widgets", method := "POST",
             body := some "\x7b\"id\":\"\",\"name\":\"Foo\"\x7d" } ∧
    fidValue (actionSave widgetServer hostNone widgetEngine []).2.1 = "42" ∧
    (actionSave widgetServer hostNone widgetEngine []).2.1.statusText =
      "Item saved\nEditing existing item:\nFoo" := by
  refine ⟨?_, rfl, rfl, rfl⟩
  intro srv host e t d hpre hread
  have hurl : saveUrl e = (if fidValue e = "" then e.endpointBase
      else e.endpointBase ++ "/" ++ fidValue e) := by
    unfold saveUrl
    by_cases h : fidValue e = "" <;> simp [h]
  have hmethod : saveMethod e = (if fidValue e = "" then "POST" else "PUT") := by
    unfold saveMethod
    by_cases h : fidValue e = "" <;> simp [h]
  have hbody : (saveBody srv host e t).2.2 = t ++
      [{ url := saveUrl e, method := saveMethod e, body := jsonStringify d }] := by
    unfold saveBody
    rw [mBind_mGet_apply, hread, mOfOption_some, mBind_mPure_apply, hpre, doHook_none,
      mBind_mPure_apply]
    exact mBind_trace_extend
      (mTry_trace_extend (fetchJSON_trace srv _ _ _ _ _ _ e t)
        (fun v => traceConst_saveFetchHandler v))
      (fun result => traceConst_mBind (traceConst_doHook _ _) (fun _ => traceConst_mPure _))
  unfold save
  rw [← hurl, ← hmethod]
  exact mTry_trace_extend hbody
    (fun v => traceConst_mBind (traceConst_updateStatus _ _) (fun _ => traceConst_mThrow _))

theorem save_request_rule_and_scenario_witness :
    widgetEngine.preSave = none ∧
    readFormFields hostNone widgetEngine.formFields =
      some (.obj [("id", .str ""), ("name", .str "Foo")]) ∧
    (save srvEmptyList hostNone widgetEngine []).2.2 = [] ++
      [{ url := if fidValue widgetEngine = "" then widgetEngine.endpointBase
                else widgetEngine.endpointBase ++ "/" ++ fidValue widgetEngine,
         method := if fidValue widgetEngine = "" then "POST" else "PUT",
         body := jsonStringify (.obj [("id", .str ""), ("name", .str "Foo")]) }] :=
  ⟨rfl, rfl,
    save_request_rule_and_scenario.1 srvEmptyList hostNone widgetEngine []
      (.obj [("id", .str ""), ("name", .str "Foo")]) rfl rfl⟩

/-! ## Claim C5 -/

/-- A `formatJSON`-tagged textarea holding text `JSON.parse` rejects. -/
def badJsonControl : FormField :=
  { name := "blob", value := "not json", nodeName := "TEXTAREA", classes := ["formatJSON"] }

/-- C5 (code evaluated at the failing input): reading a form whose
`formatJSON` field holds unparsable text keeps the field's key, bound to the
raw unparsed text — the empty catch block leaves `value` as `field.value`
and `deepSet` runs unconditionally — contradicting the README ('If parsing
fails, the field will be ommited') and the claim that the key is absent. -/
theorem formatJSON_parse_failure_keeps_raw_text :
    hostNone.jsonParse "not json" = none ∧
    readFormFields hostNone [idControl, badJsonControl] =
      some (.obj [("id", .str ""), ("blob", .str "not json")]) :=
  ⟨rfl, rfl⟩

/-! ## Claim C6 -/

/-- C6 (code evaluated at the failing input): `actionReset` with nothing
selected (empty identity control) yields the empty item, but reports
`'Editing existing item'`: the guard `item !== {}` compares references
against a fresh object literal and is true for every value, so the
`'Editing new item'` status is unreachable.  No request is issued (the empty
identity skips the re-fetch). -/
theorem reset_empty_selection_reports_existing :
    (updateForm srvEmptyList hostNone { reload := true } emptyIdEngine []).1 =
      .ok (.obj []) ∧
    actionReset srvEmptyList hostNone emptyIdEngine [] =
      (.ok (), ({ emptyIdEngine with statusText := "Editing existing item" } : Engine), []) :=
  ⟨rfl, rfl⟩

/-! ## Claim C7 -/

theorem mBind_mModify_apply {α : Type} (f : Engine → Engine) (K : Unit → M α)
    (e : Engine) (t : List Request) : mBind (mModify f) K e t = K () (f e) t := rfl

/-- Result-offset of a `try`/`catch` whose catch only logs. -/
theorem mTry_pn {α : Type} {x : M α} {H : JsValue → M α} {e : Engine} {t : List Request}
    {p : Int} (hx : ((x e t).2.1).pageNumber = p) (hH : ∀ v, KeepsPN (H v)) :
    ((mTry x H e t).2.1).pageNumber = p := by
  unfold mTry
  rcases hxe : x e t with ⟨r, e', t'⟩
  rw [hxe] at hx
  cases r with
  | ok a => simpa using hx
  | error v => simpa using (hH v e' t').trans hx

theorem mBind_pn {α β : Type} {x : M α} {K : α → M β} {e : Engine} {t : List Request}
    {p : Int} (hx : ((x e t).2.1).pageNumber = p) (hK : ∀ a, KeepsPN (K a)) :
    ((mBind x K e t).2.1).pageNumber = p := by
  unfold mBind
  rcases hxe : x e t with ⟨r, e', t'⟩
  rw [hxe] at hx
  cases r with
  | ok a => simpa using (hK a e' t').trans hx
  | error v => simpa using hx

theorem keepsPN_actionSelect (srv : Server) (host : Host) (id : String) :
    KeepsPN (actionSelect srv host id) := by
  unfold actionSelect
  refine keepsPN_mTry ?_ (fun _ => keepsPN_mPure _)
  refine keepsPN_mBind (keepsPN_updateStatus _ _) (fun _ => ?_)
  refine keepsPN_mBind (keepsPN_updateSelected _) (fun _ => ?_)
  refine keepsPN_mBind (keepsPN_updateForm _ _ _) (fun item => ?_)
  refine keepsPN_mBind keepsPN_mGet (fun e => ?_)
  refine keepsPN_mBind (keepsPN_mOfExcept _) (fun nm => ?_)
  exact keepsPN_updateStatus _ _

theorem keepsPN_actionDelete (srv : Server) (host : Host) :
    KeepsPN (actionDelete srv host) := by
  unfold actionDelete
  refine keepsPN_mTry ?_ (fun _ => keepsPN_mPure _)
  refine keepsPN_mBind (keepsPN_updateStatus _ _) (fun _ => ?_)
  refine keepsPN_mBind (keepsPN_deleteSelected _) (fun _ => ?_)
  refine keepsPN_mBind (keepsPN_updateTable _) (fun _ => ?_)
  refine keepsPN_mBind (keepsPN_updateForm _ _ _) (fun _ => ?_)
  exact keepsPN_updateStatus _ _

theorem keepsPN_actionCreate (srv : Server) (host : Host) :
    KeepsPN (actionCreate srv host) := by
  unfold actionCreate
  refine keepsPN_mTry ?_ (fun _ => keepsPN_mPure _)
  refine keepsPN_mBind (keepsPN_updateStatus _ _) (fun _ => ?_)
  refine keepsPN_mBind (keepsPN_updateSelected _) (fun _ => ?_)
  refine keepsPN_mBind (keepsPN_updateForm _ _ _) (fun _ => ?_)
  exact keepsPN_updateStatus _ _

theorem keepsPN_actionSave (srv : Server) (host : Host) :
    KeepsPN (actionSave srv host) := by
  unfold actionSave
  refine keepsPN_mTry ?_ (fun _ => keepsPN_mPure _)
  refine keepsPN_mBind (keepsPN_updateStatus _ _) (fun _ => ?_)
  refine keepsPN_mBind (keepsPN_save _ _) (fun item => ?_)
  split
  · refine keepsPN_mBind (keepsPN_updateForm _ _ _) (fun _ => ?_)
    refine keepsPN_mBind (keepsPN_updateTable _) (fun _ => ?_)
    refine keepsPN_mBind keepsPN_mGet (fun e => ?_)
    refine keepsPN_mBind (keepsPN_mOfExcept _) (fun idv => ?_)
    refine keepsPN_mBind (keepsPN_updateSelected _) (fun _ => ?_)
    refine keepsPN_mBind (keepsPN_mOfExcept _) (fun nm => ?_)
    exact keepsPN_updateStatus _ _
  · exact keepsPN_mPure _

theorem keepsPN_actionReset (srv : Server) (host : Host) :
    KeepsPN (actionReset srv host) := by
  unfold actionReset
  refine keepsPN_mTry ?_ (fun _ => keepsPN_mPure _)
  refine keepsPN_mBind (keepsPN_updateStatus _ _) (fun _ => ?_)
  refine keepsPN_mBind (keepsPN_updateForm _ _ _) (fun item => ?_)
  refine keepsPN_mBind keepsPN_mGet (fun e => ?_)
  split
  · refine keepsPN_mBind (keepsPN_mOfExcept _) (fun nm => ?_)
    exact keepsPN_updateStatus _ _
  · exact keepsPN_updateStatus _ _

/-- The scenario engine for pagination: increment 5, offset 0. -/
def pageEngine : Engine := { emptyIdEngine with pageIncrement := 5 }

/-- Three `nextPage()` calls from offset 0. -/
def pageScenario3 : Engine :=
  (actionNextPage srvEmptyList
    ((actionNextPage srvEmptyList
      ((actionNextPage srvEmptyList pageEngine []).2.1) []).2.1) []).2.1

/-- C7: the pagination offset is exactly managed by the three page-touching
actions — `nextPage` adds the increment, `previousPage` subtracts it
clamping at 0, an explicit search resets to 0 — every other action and the
constructor leave it alone (the constructor initializes it to 0); hence for
a non-negative increment it stays a non-negative integer after construction
and after every action.  Concretely with increment 5: three `nextPage` calls
yield 15, a following `previousPage` yields 10, and `previousPage` at 0
stays 0. -/
theorem pagination_offset_invariant :
    (∀ (srv : Server) (e : Engine) (t : List Request),
      (constructInit srv e t).2.1.pageNumber = 0) ∧
    (∀ (srv : Server) (e : Engine) (t : List Request),
      (actionNextPage srv e t).2.1.pageNumber = e.pageNumber + e.pageIncrement) ∧
    (∀ (srv : Server) (e : Engine) (t : List Request),
      (actionPreviousPage srv e t).2.1.pageNumber =
        (if e.pageNumber - e.pageIncrement < 0 then 0
         else e.pageNumber - e.pageIncrement)) ∧
    (∀ (srv : Server) (e : Engine) (t : List Request),
      (actionSearch srv e t).2.1.pageNumber = 0) ∧
    (∀ (srv : Server) (host : Host) (id : String) (e : Engine) (t : List Request),
      (actionSelect srv host id e t).2.1.pageNumber = e.pageNumber ∧
      (actionDelete srv host e t).2.1.pageNumber = e.pageNumber ∧
      (actionCreate srv host e t).2.1.pageNumber = e.pageNumber ∧
      (actionSave srv host e t).2.1.pageNumber = e.pageNumber ∧
      (actionReset srv host e t).2.1.pageNumber = e.pageNumber) ∧
    (∀ (srv : Server) (e : Engine) (t : List Request),
      0 ≤ e.pageNumber → 0 ≤ e.pageIncrement →
      0 ≤ (actionNextPage srv e t).2.1.pageNumber ∧
      0 ≤ (actionPreviousPage srv e t).2.1.pageNumber ∧
      0 ≤ (actionSearch srv e t).2.1.pageNumber) ∧
    (pageScenario3.pageNumber = 15 ∧
     (actionPreviousPage srvEmptyList pageScenario3 []).2.1.pageNumber = 10 ∧
     (actionPreviousPage srvEmptyList pageEngine []).2.1.pageNumber = 0) := by
  have hnext : ∀ (srv : Server) (e : Engine) (t : List Request),
      (actionNextPage srv e t).2.1.pageNumber = e.pageNumber + e.pageIncrement := by
    intro srv e t
    unfold actionNextPage
    refine mTry_pn ?_ (fun _ => keepsPN_mPure _)
    rw [mBind_mModify_apply]
    exact (keepsPN_updateTable srv _ t).trans rfl
  have hprev : ∀ (srv : Server) (e : Engine) (t : List Request),
      (actionPreviousPage srv e t).2.1.pageNumber =
        (if e.pageNumber - e.pageIncrement < 0 then 0
         else e.pageNumber - e.pageIncrement) := by
    intro srv e t
    unfold actionPreviousPage
    refine mTry_pn ?_ (fun _ => keepsPN_mPure _)
    rw [mBind_mModify_apply]
    exact (keepsPN_updateTable srv _ t).trans rfl
  have hsearch : ∀ (srv : Server) (e : Engine) (t : List Request),
      (actionSearch srv e t).2.1.pageNumber = 0 := by
    intro srv e t
    unfold actionSearch
    refine mTry_pn ?_ (fun _ => keepsPN_mPure _)
    rw [mBind_ok (updateStatus_plain "Searching..." e t), mBind_mModify_apply]
    refine mBind_pn ?_ (fun _ => keepsPN_updateStatus _ _)
    exact (keepsPN_updateTable srv _ t).trans rfl
  refine ⟨?_, hnext, hprev, hsearch, ?_, ?_, by decide, by decide, by decide⟩
  · intro srv e t
    unfold constructInit
    rw [mBind_mModify_apply]
    exact (keepsPN_mTry (keepsPN_updateTable srv) (fun _ => keepsPN_mPure _) _ t).trans rfl
  · intro srv host id e t
    exact ⟨keepsPN_actionSelect srv host id e t, keepsPN_actionDelete srv host e t,
      keepsPN_actionCreate srv host e t, keepsPN_actionSave srv host e t,
      keepsPN_actionReset srv host e t⟩
  · intro srv e t hpn hinc
    refine ⟨?_, ?_, ?_⟩
    · rw [hnext]; exact add_nonneg hpn hinc
    · rw [hprev]
      split
      · exact le_refl 0
      · rename_i hlt
        exact le_of_not_lt hlt
    · rw [hsearch]

theorem pagination_offset_invariant_witness :
    (0 ≤ pageEngine.pageNumber ∧ 0 ≤ pageEngine.pageIncrement) ∧
    0 ≤ (actionNextPage srvEmptyList pageEngine []).2.1.pageNumber :=
  ⟨⟨by decide, by decide⟩,
    (pagination_offset_invariant.2.2.2.2.2.1 srvEmptyList pageEngine []
      (by decide) (by decide)).1⟩

/-! ## Claim C8 -/

/-- C8 counterexample: on container `{a: 5}` with path `"a.b"`, `deepSet`
descends into the primitive `5` and the strict-mode property assignment
throws a `TypeError` (modelled as `none`), so set-then-get cannot return the
value just set: the claim fails when an intermediate path value exists but
is not an object. -/
theorem deepSet_roundtrip_counterexample :
    deepSet (.obj [("a", .num 5)]) "a.b" (.num 7) = none ∧
    ¬ ∃ c', deepSet (.obj [("a", .num 5)]) "a.b" (.num 7) = some c' ∧
        deepFind c' "a.b" = some (.num 7) := by
  refine ⟨rfl, ?_⟩
  rintro ⟨c', hset, -⟩
  rw [show deepSet (.obj [("a", .num 5)]) "a.b" (.num 7) = none from rfl] at hset
  exact Option.noConfusion hset

/-- C8 (amended): `deepSet` followed by `deepFind` on the same path returns
the value just set, provided every existing intermediate value along the
path is an object (absent intermediates are created as fresh objects) and
the value is not `null` (a `null` leaf reads back as `undefined` through the
loose `== undefined` check); for non-dotted paths both operations are direct
key access on the given container, whose returned value is the container
updated in place at that key; and `deepSet` of `"a.b.c"` to `5` on `{}`
yields `{a:{b:{c:5}}}`. -/
theorem deepSet_deepFind_roundtrip :
    (∀ (fs : List (String × JsValue)) (k : String) (v : JsValue),
        containsChar k '.' = false →
        deepSet (.obj fs) k v = some (.obj (insertProp fs k v)) ∧
        deepFind (.obj (insertProp fs k v)) k = some v) ∧
    (∀ (c v : JsValue) (path : String),
        containsChar path '.' = true → pathOK c (jsSplit path '.') = true →
        jsSplit path '.' ≠ [] → v ≠ .null →
        ∃ c', deepSet c path v = some c' ∧ deepFind c' path = some v) ∧
    (deepSet (.obj []) "a.b.c" (.num 5) =
      some (.obj [("a", .obj [("b", .obj [("c", .num 5)])])]) ∧
     deepFind (.obj [("a", .obj [("b", .obj [("c", .num 5)])])]) "a.b.c" =
       some (.num 5)) := by
  refine ⟨?_, ?_, rfl, rfl⟩
  · intro fs k v hk
    constructor
    · unfold deepSet
      rw [hk]
      rfl
    · unfold deepFind
      rw [hk]
      show (some ((propLookup (insertProp fs k v) k).getD .undefined) : Option JsValue) =
        some v
      rw [propLookup_insertProp_self]
      rfl
  · intro c v path hdot hok hne hv
    obtain ⟨c', hset, _, hfind⟩ := deepSetGo_roundtrip (jsSplit path '.') c v hne hok hv
    refine ⟨c', ?_, ?_⟩
    · unfold deepSet
      rw [hdot]
      exact hset
    · unfold deepFind
      rw [hdot]
      exact hfind

theorem deepSet_deepFind_roundtrip_witness :
    (containsChar "a" '.' = false ∧
      deepSet (.obj []) "a" (.num 3) = some (.obj [("a", .num 3)])) ∧
    (containsChar "a.b" '.' = true ∧ pathOK (.obj []) (jsSplit "a.b" '.') = true ∧
      ∃ c', deepSet (.obj []) "a.b" (.num 3) = some c' ∧
        deepFind c' "a.b" = some (.num 3)) :=
  ⟨⟨rfl, (deepSet_deepFind_roundtrip.1 [] "a" (.num 3) rfl).1⟩,
   ⟨rfl, rfl,
    deepSet_deepFind_roundtrip.2.1 (.obj []) (.num 3) "a.b" rfl rfl
      (by simp [jsSplit, splitCharAux]) (fun h => JsValue.noConfusion h)⟩⟩

/-! ## Claim C9 -/

/-- The OK-status arm of ResponseUnwrapper as the claim words it: list mode
takes an array body unchanged, else a `results` array, else the empty
sequence; single-item mode takes the first element of an array body or of
its `results` array (absent when empty), else the body itself. -/
def unwrapSpecOk (array first : Bool) (body : JsValue) : Except JsValue JsValue :=
  if array then
    match body with
    | .arr xs => .ok (.arr xs)
    | _ =>
        match getOwn body "results" with
        | .arr xs => .ok (.arr xs)
        | _ => .ok (.arr [])
  else if first then
    match body with
    | .arr [] => .ok .undefined
    | .arr (x :: _) => .ok x
    | _ =>
        match getOwn body "results" with
        | .arr [] => .ok .undefined
        | .arr (x :: _) => .ok x
        | _ => .ok body
  else .ok body

/-- ResponseUnwrapper exactly as the claim words it (for the refinement
comparison with `fetchJSON`): status 204 yields the empty sequence in list
mode and absent in single-item mode; a non-OK status raises the parsed body
as the error value; otherwise `unwrapSpecOk` normalizes the body. -/
def unwrapSpec (array first : Bool) (status : Nat) (body : JsValue) :
    Except JsValue JsValue :=
  if status == 204 then .ok (if array then .arr [] else .undefined)
  else if !(200 ≤ status && status ≤ 299 : Bool) then .error body
  else unwrapSpecOk array first body

/-- C9 counterexample: a `null` body under an OK status in list mode does
not normalize to the empty sequence — reading `.results` off `null` throws a
`TypeError` instead. -/
theorem fetchJSON_null_body_counterexample :
    (fetchJSON (fun _ => { status := 200, body := .null }) "/api/widgets" "GET" none
        true false false emptyIdEngine []).1 = .error typeError ∧
    ¬ ((fetchJSON (fun _ => { status := 200, body := .null }) "/api/widgets" "GET" none
        true false false emptyIdEngine []).1 = .ok (.arr [])) := by
  refine ⟨rfl, fun h => ?_⟩
  have h2 : (Except.error typeError : Except JsValue JsValue) = .ok (.arr []) :=
    Eq.trans (by rfl) h
  exact Except.noConfusion h2

theorem mOfExcept_fst {α : Type} (x : Except JsValue α) (e : Engine) (t : List Request) :
    (mOfExcept x e t).1 = x := by
  cases x <;> rfl

theorem unwrapData_eq_specOk (array first : Bool) (body : JsValue)
    (hnull : body ≠ .null) (hundef : body ≠ .undefined) :
    unwrapData array first body = unwrapSpecOk array first body := by
  cases body with
  | null => exact absurd rfl hnull
  | undefined => exact absurd rfl hundef
  | arr xs => cases xs <;> cases array <;> cases first <;> rfl
  | obj fs =>
      cases array <;> cases first <;>
        simp only [unwrapData, unwrapSpecOk, isArr, getProp] <;>
        cases hg : getOwn (JsValue.obj fs) "results" <;> rfl
  | bool b => cases array <;> cases first <;> rfl
  | num n => cases array <;> cases first <;> rfl
  | str s => cases array <;> cases first <;> rfl

/-- C9 (amended): against a server answering with a given response,
`fetchJSON`'s returned value is exactly the claim's normalization
(`unwrapSpec`) for every actual JSON body — i.e. every body other than
`null` (for which the code instead throws a `TypeError` in the shape-probing
step, see the counterexample) and other than the unparseable `undefined`. -/
theorem fetchJSON_matches_unwrapSpec (resp : Response) (url method : String)
    (body? : Option String) (array first : Bool) (e : Engine) (t : List Request)
    (hnull : resp.body ≠ .null) (hundef : resp.body ≠ .undefined) :
    (fetchJSON (fun _ => resp) url method body? array first false e t).1 =
      unwrapSpec array first resp.status resp.body := by
  show (fetchPost array first false resp e
      (t ++ [{ url := url, method := method, body := body? }])).1 =
    unwrapSpec array first resp.status resp.body
  rcases resp with ⟨status, body⟩
  simp only at hnull hundef
  unfold fetchPost unwrapSpec
  simp only [Response.ok]
  by_cases h204 : (status == 204) = true
  · rw [if_pos h204, if_pos h204]
    cases array <;> rfl
  · rw [if_neg h204, if_neg h204]
    by_cases hok : (200 ≤ status && status ≤ 299 : Bool) = true
    · rw [if_neg (show ¬ ((!(200 ≤ status && status ≤ 299 : Bool)) = true) by
          simp [hok]),
        if_neg (show ¬ ((!(200 ≤ status && status ≤ 299 : Bool)) = true) by
          simp [hok])]
      show (mOfExcept (unwrapData array first body) _ _).1 = _
      rw [mOfExcept_fst]
      exact unwrapData_eq_specOk array first body hnull hundef
    · have hok' : (!(200 ≤ status && status ≤ 299 : Bool)) = true := by
        rcases Bool.eq_false_or_eq_true (200 ≤ status && status ≤ 299 : Bool) with h | h
        · exact absurd h hok
        · rw [h]; rfl
      rw [if_pos hok', if_pos hok']
      rfl

theorem fetchJSON_matches_unwrapSpec_witness :
    ((JsValue.arr [.obj [("id", .num 1)], .obj [("id", .num 2)]]) ≠ JsValue.null) ∧
    (fetchJSON
      (fun _ =>
        { status := 200,
          body := .arr [.obj [("id", .num 1)], .obj [("id", .num 2)]] })
      "/api/widgets" "GET" none true false false emptyIdEngine []).1 =
      unwrapSpec true false 200 (.arr [.obj [("id", .num 1)], .obj [("id", .num 2)]]) :=
  ⟨fun h => JsValue.noConfusion h,
    fetchJSON_matches_unwrapSpec
      { status := 200, body := .arr [.obj [("id", .num 1)], .obj [("id", .num 2)]] }
      "/api/widgets" "GET" none true false emptyIdEngine []
      (fun h => JsValue.noConfusion h) (fun h => JsValue.noConfusion h)⟩

/-! ## Claim C10 -/

theorem traceConst_appendRows (items : List JsValue) : TraceConst (appendRows items) := by
  induction items with
  | nil => exact traceConst_mPure _
  | cons item rest ih =>
      refine traceConst_mBind traceConst_mGet (fun e => ?_)
      split
      · exact traceConst_mThrow _
      · exact traceConst_mBind (traceConst_mModify _) (fun _ => ih)

theorem traceConst_updatePageStatus : TraceConst updatePageStatus := by
  refine traceConst_mBind traceConst_mGet (fun e => ?_)
  split
  · split
    · exact traceConst_mModify _
    · exact traceConst_mPure _
  · exact traceConst_mPure _

/-- C10: when the search term is absent or the empty string, no `preSearch`
hook is configured, and no pagination parameter names are configured, the
table refresh issues exactly one `GET` to the bare endpoint URL — no query
string at all, the search parameter omitted entirely rather than sent
empty. -/
theorem updateTable_bare_endpoint_url (srv : Server) (e : Engine) (t : List Request)
    (hsv : e.searchValue = .undefined ∨ e.searchValue = .str "")
    (hpre : e.preSearch = none ∨
      ∃ f, e.preSearch = some f ∧ f e.searchValue = .ret .undefined)
    (hps : e.pageSizeParam = none) (hpn : e.pageNumberParam = none) :
    (updateTable srv e t).2.2 =
      t ++ [{ url := e.endpoint, method := "GET", body := none }] := by
  have hurl : tableUrl e e.searchValue = e.endpoint := by
    unfold tableUrl buildQueryParams
    rw [hps, hpn]
    rcases hsv with h | h <;> rw [h] <;> rfl
  have hhk : doHook e.preSearch e.searchValue = mPure e.searchValue := by
    rcases hpre with hnone | ⟨f, hsome, hret⟩
    · rw [hnone, doHook_none]
    · rw [hsome, doHook_ret hret]
      rfl
  have hbody : (updateTableBody srv e t).2.2 =
      t ++ [{ url := e.endpoint, method := "GET", body := none }] := by
    unfold updateTableBody
    rw [mBind_mGet_apply, hhk, mBind_mPure_apply, hurl]
    refine mBind_trace_extend (fetchJSON_trace srv _ _ _ _ _ _ e t) (fun data => ?_)
    refine traceConst_mBind (traceConst_doHook _ _) (fun data2 => ?_)
    refine traceConst_mBind (traceConst_mModify _) (fun _ => ?_)
    refine traceConst_mBind (traceConst_mOfOption _ _) (fun items => ?_)
    refine traceConst_mBind (traceConst_appendRows _) (fun _ => ?_)
    exact traceConst_mBind (traceConst_doHook _ _) (fun _ => traceConst_updatePageStatus)
  unfold updateTable
  exact mTry_trace_extend hbody
    (fun v => traceConst_mBind (traceConst_updateStatus _ _) (fun _ => traceConst_mThrow _))

/-- A `preSearch` hook that returns nothing, for the C10 witness's second
case. -/
def silentPreSearch : JsValue → HookOutcome := fun _ => .ret .undefined

theorem updateTable_bare_endpoint_url_witness :
    (emptyIdEngine.searchValue = .undefined ∧
     (updateTable srvEmptyList emptyIdEngine []).2.2 =
       [] ++ [{ url := emptyIdEngine.endpoint, method := "GET", body := none }]) ∧
    (silentPreSearch
        ({ emptyIdEngine with preSearch := some silentPreSearch } : Engine).searchValue =
       .ret .undefined ∧
     (updateTable srvEmptyList
         ({ emptyIdEngine with preSearch := some silentPreSearch } : Engine) []).2.2 =
       [] ++ [{ url := emptyIdEngine.endpoint, method := "GET", body := none }]) :=
  ⟨⟨rfl,
    updateTable_bare_endpoint_url srvEmptyList emptyIdEngine [] (Or.inl rfl)
      (Or.inl rfl) rfl rfl⟩,
   ⟨rfl,
    updateTable_bare_endpoint_url srvEmptyList
      ({ emptyIdEngine with preSearch := some silentPreSearch } : Engine) []
      (Or.inl rfl) (Or.inr ⟨silentPreSearch, rfl, rfl⟩) rfl rfl⟩⟩
